import Mathlib

/-!
Verification of the incremental article-synchronization core of a
scrape / embed / vector-search application.

The Python sources are shallowly embedded:

* `backend/app/article_processor.py`  — `parse_date`, `_extract_charts`
  de-duplication, and the `update_articles` pagination walk;
* `backend/app/embedding_processor.py` — `_prepare_text_for_embedding`,
  `process_articles`, `remove_from_tracking`;
* `backend/app/pinecone_manager.py`   — `update_article_metadata`,
  `upsert_articles`, `delete_article` (the remote index is modelled as a
  key/value store keyed by slug);
* `backend/app/article_updater.py`    — `update_single_article`.

External effects (HTTP fetches, the OpenAI embedding call, `datetime.now`,
Pinecone calls) are passed in as explicit oracle functions; a Python
exception at such a call site is modelled by the oracle returning `none`
(or by a `Bool` success flag for the fire-and-forget Pinecone calls).
Python dictionaries are modelled as association lists keyed by `String`;
insertion order is not observed by any property proved here.
-/

/-! ## Python string primitives (character-list based, kernel-evaluable) -/

/-- `s.split(c)` for a single-character separator, keeping empty pieces,
exactly like Python `str.split` with an explicit separator. -/
def splitOnChar (c : Char) : List Char → List (List Char)
  | [] => [[]]
  | x :: xs =>
    let r := splitOnChar c xs
    if x = c then
      [] :: r
    else
      match r with
      | [] => [[x]]
      | t :: ts => (x :: t) :: ts

/-- Fuel-driven worker for `pySplit`: scans left to right, emitting the
accumulated token whenever the separator is a prefix of the remaining
input (Python `str.split` with a multi-character separator).  The fuel is
always at least `l.length + 1`, so the first arm is never reached. -/
def pySplitGo (sep : List Char) : Nat → List Char → List Char → List (List Char)
  | 0, l, acc => [acc.reverse ++ l]
  | _ + 1, [], acc => [acc.reverse]
  | fuel + 1, c :: rest, acc =>
    if sep.isPrefixOf (c :: rest) && !sep.isEmpty then
      acc.reverse :: pySplitGo sep fuel ((c :: rest).drop sep.length) []
    else
      pySplitGo sep fuel rest (c :: acc)

/-- Python `s.split(sep)` for a non-empty multi-character separator,
keeping empty pieces. -/
def pySplit (sep : List Char) (l : List Char) : List (List Char) :=
  pySplitGo sep (l.length + 1) l []

/-- Python `s.replace("\n", " ")`: a single-character pattern replaced by a
single character is exactly a character map. -/
def pyReplaceNewline (s : String) : String :=
  String.mk (s.toList.map (fun c => if c = '\n' then ' ' else c))

/-- The whitespace set of Python `str.strip()` (ASCII part). -/
def isPySpace (c : Char) : Bool :=
  c == ' ' || c == '\t' || c == '\n' || c == '\r' || c == Char.ofNat 11 || c == Char.ofNat 12

/-- Python `s.strip()`. -/
def pyStrip (s : String) : String :=
  String.mk (((s.toList.dropWhile isPySpace).reverse.dropWhile isPySpace).reverse)

/-- Python `s.split('\n')` returning `String`s. -/
def pySplitLines (s : String) : List String :=
  (splitOnChar '\n' s.toList).map String.mk

/-- Python `len(s)` (code points). -/
def pyLen (s : String) : Nat := s.toList.length

/-- Python `s[:n]` (slice of the first `n` code points). -/
def pyTake (n : Nat) (s : String) : String := String.mk (s.toList.take n)

/-! ## `parse_date` (article_processor.py)

```python
def parse_date(date: str) -> str:
    try:
        return datetime.strptime(date.split('• ')[1], '%d %b %y').strftime('%Y-%m-%d')
    except:
        # On main article page, date is in format '8 Jan 2021'
        return datetime.strptime(date.split('• ')[1], '%d %b %Y').strftime('%Y-%m-%d')
```

`strptime` is modelled for the two formats used, on single-space-separated
tokens: `%d` is one or two digits in 1..31, `%b` a case-insensitive
three-letter month abbreviation, `%y` exactly two digits (00-68 mapping to
20xx, 69-99 to 19xx), `%Y` exactly four digits; the resulting calendar
date is validated as `datetime` does.  A raised exception is `none`; note
that when `date` contains no `'• '`, the indexing `[1]` fails in the
`try` arm and again in the `except` arm, so the exception escapes. -/

/-- Digit-string to number (`none` unless non-empty and all digits). -/
def parseNatDigits (l : List Char) : Option Nat :=
  if !l.isEmpty && l.all Char.isDigit then
    some (l.foldl (fun n c => n * 10 + (c.toNat - 48)) 0)
  else
    none

/-- Lower-cased `%b` month abbreviations, in month order. -/
def monthAbbrevs : List (List Char) :=
  ["jan", "feb", "mar", "apr", "may", "jun",
   "jul", "aug", "sep", "oct", "nov", "dec"].map String.toList

/-- `%b`: case-insensitive month abbreviation to month number 1..12. -/
def parseMonthTok (tok : List Char) : Option Nat :=
  match monthAbbrevs.indexOf? (tok.map Char.toLower) with
  | some i => some (i + 1)
  | none => none

/-- `%d`: one or two digits, value 1..31. -/
def parseDayTok (tok : List Char) : Option Nat :=
  if tok.length = 1 || tok.length = 2 then
    match parseNatDigits tok with
    | some n => if 1 ≤ n && n ≤ 31 then some n else none
    | none => none
  else
    none

/-- `%y`: exactly two digits; 00-68 map to 2000+, 69-99 to 1900+. -/
def parseYear2Tok (tok : List Char) : Option Nat :=
  if tok.length = 2 then
    match parseNatDigits tok with
    | some n => some (if n ≤ 68 then 2000 + n else 1900 + n)
    | none => none
  else
    none

/-- `%Y`: exactly four digits. -/
def parseYear4Tok (tok : List Char) : Option Nat :=
  if tok.length = 4 then parseNatDigits tok else none

def isLeapYear (y : Nat) : Bool :=
  (y % 4 == 0 && y % 100 != 0) || (y % 400 == 0)

def daysInMonth (y m : Nat) : Nat :=
  if m = 2 then (if isLeapYear y then 29 else 28)
  else if m = 4 || m = 6 || m = 9 || m = 11 then 30
  else 31

/-- `datetime.strptime(s, '%d %b ' + yearFormat)` returning `(y, m, d)`. -/
def strptimeDMY (parseYear : List Char → Option Nat) (s : List Char) :
    Option (Nat × Nat × Nat) :=
  match splitOnChar ' ' s with
  | [dTok, mTok, yTok] =>
    match parseDayTok dTok, parseMonthTok mTok, parseYear yTok with
    | some d, some m, some y =>
      if 1 ≤ d && d ≤ daysInMonth y m then some (y, m, d) else none
    | _, _, _ => none
  | _ => none

def pad2 (n : Nat) : String :=
  if n < 10 then "0" ++ toString n else toString n

def pad4 (n : Nat) : String :=
  if n < 10 then "000" ++ toString n
  else if n < 100 then "00" ++ toString n
  else if n < 1000 then "0" ++ toString n
  else toString n

/-- `strftime('%Y-%m-%d')`. -/
def fmtISO (ymd : Nat × Nat × Nat) : String :=
  pad4 ymd.1 ++ "-" ++ pad2 ymd.2.1 ++ "-" ++ pad2 ymd.2.2

/-- `parse_date` from `article_processor.py`; `none` models an escaping
exception. -/
def parse_date (date : String) : Option String :=
  match (pySplit ('•' :: ' ' :: []) date.toList)[1]? with
  | none => none
  | some datePart =>
    match strptimeDMY parseYear2Tok datePart with
    | some ymd => some (fmtISO ymd)
    | none =>
      match strptimeDMY parseYear4Tok datePart with
      | some ymd => some (fmtISO ymd)
      | none => none

/-! ## Chart de-duplication (article_processor.py `_extract_charts`)

The interesting line is
`sorted(set(charts_info), key=charts_info.index)`: the distinct
`(title, source)` pairs ordered by the index of their first occurrence
(`list.index` returns the first index, and those keys are distinct across
distinct elements, so the sort order is fully determined).  It is realised
here by the equivalent keep-first-occurrence recursion. -/

/-- `fun y => y != x` on chart pairs. -/
def neqPred (x : String × String) (y : String × String) : Bool := y ≠ x

theorem neqPred_eq_true (x y : String × String) : neqPred x y = true ↔ y ≠ x := by
  simp [neqPred]

def extract_charts_dedup : List (String × String) → List (String × String)
  | [] => []
  | x :: xs => x :: extract_charts_dedup (xs.filter (neqPred x))
termination_by l => l.length
decreasing_by
  simp only [List.length_cons]
  exact Nat.lt_succ_of_le (List.length_filter_le _ _)

/-- The position of the first occurrence of `x` in `l` (Python
`l.index(x)`); `l.length` when absent. -/
def firstIndexOf (x : String × String) : List (String × String) → Nat
  | [] => 0
  | y :: ys => if y = x then 0 else firstIndexOf x ys + 1

/-! Sanity examples for the dedup and the date parser. -/

example :
    extract_charts_dedup [("a", "s"), ("b", "t"), ("a", "s"), ("c", "u"), ("b", "t")] =
      [("a", "s"), ("b", "t"), ("c", "u")] := by
  simp [extract_charts_dedup, neqPred, List.filter_cons]

example : parse_date "Articles • 8 Jan 21" = some "2021-01-08" := by decide
example : parse_date "Articles • 8 Jan 2021" = some "2021-01-08" := by decide
example : parse_date "8 Jan 21" = none := by decide

/-! ## Dictionaries (Python `dict` keyed by slug)

`self.articles`, the Pinecone index, and metadata dictionaries are
string-keyed mappings.  `storeInsert` models `d[k] = v`, `storeErase`
models `del d[k]` / index deletion, `storeContains` models `k in d`.
Insertion order is not observed by any property proved here. -/

abbrev Store (A : Type) := List (String × A)

def storeContains {A : Type} (st : Store A) (k : String) : Bool :=
  st.any (fun p => p.1 == k)

def storeErase {A : Type} (st : Store A) (k : String) : Store A :=
  st.filter (fun p => !(p.1 == k))

def storeInsert {A : Type} (st : Store A) (k : String) (v : A) : Store A :=
  (k, v) :: storeErase st k

theorem storeContains_iff {A : Type} (st : Store A) (k : String) :
    storeContains st k = true ↔ ∃ p ∈ st, p.1 = k := by
  simp [storeContains, List.any_eq_true, beq_iff_eq]

theorem storeContains_erase_iff {A : Type} (st : Store A) (k j : String) :
    storeContains (storeErase st k) j = true ↔
      (storeContains st j = true ∧ j ≠ k) := by
  simp only [storeContains, storeErase, List.any_eq_true, List.mem_filter,
    beq_iff_eq, Bool.not_eq_true']
  constructor
  · rintro ⟨p, ⟨hp, hpk⟩, hpj⟩
    rw [beq_eq_false_iff_ne] at hpk
    exact ⟨⟨p, hp, hpj⟩, by rw [← hpj]; exact hpk⟩
  · rintro ⟨⟨p, hp, hpj⟩, hjk⟩
    refine ⟨p, ⟨hp, ?_⟩, hpj⟩
    rw [beq_eq_false_iff_ne, hpj]
    exact hjk

theorem storeContains_erase_self {A : Type} (st : Store A) (k : String) :
    storeContains (storeErase st k) k = false :=
  Bool.eq_false_iff.mpr fun h => ((storeContains_erase_iff st k k).mp h).2 rfl

theorem storeContains_insert_iff {A : Type} (st : Store A) (k j : String) (v : A) :
    storeContains (storeInsert st k v) j = true ↔
      (j = k ∨ storeContains st j = true) := by
  have hhead : storeContains (storeInsert st k v) j =
      ((k == j) || storeContains (storeErase st k) j) := by
    simp [storeContains, storeInsert]
  rw [hhead, Bool.or_eq_true, beq_iff_eq, storeContains_erase_iff]
  constructor
  · rintro (h | ⟨h, _⟩)
    · exact Or.inl h.symm
    · exact Or.inr h
  · rintro (h | h)
    · exact Or.inl h.symm
    · by_cases hjk : j = k
      · exact Or.inl hjk.symm
      · exact Or.inr ⟨h, hjk⟩

theorem storeContains_insert_self {A : Type} (st : Store A) (k : String) (v : A) :
    storeContains (storeInsert st k v) k = true :=
  (storeContains_insert_iff st k k v).mpr (Or.inl rfl)

/-! ## Data model -/

/-- `ArticleInfo` dataclass (article_processor.py): the listing-page stub. -/
structure ArticleInfo where
  slug : String
  title : String
  url : String
  date : String
  main_category : String
deriving DecidableEq, Repr

/-- The content dict built by `ArticleProcessor.scrape_article_content`
(keys exactly `title, date, slug, url, main_category, author,
secondary_categories, related_articles, charts, teaser, text`). -/
structure Article where
  title : String
  date : String
  slug : String
  url : String
  main_category : String
  author : List String
  secondary_categories : List String
  related_articles : List (String × String)
  charts : List (String × String)
  teaser : String
  text : String
deriving DecidableEq, Repr

/-- One row of the `embedded_articles.csv` tracking file
(embedding_processor.py). -/
structure LedgerEntry where
  slug : String
  date_embedded : String
  embedding_model : String
  num_tokens : Nat
deriving DecidableEq, Repr

/-- One row of the DataFrame returned by `process_articles`
(embedding vector plus denormalized metadata).  Vectors are opaque data
here, modelled as `List Int`. -/
structure EmbRow where
  slug : String
  date_embedded : String
  embedding_model : String
  num_tokens : Nat
  embedding : List Int
  title : String
  date : String
  date_timestamp : Int
  url : String
  main_category : String
  secondary_categories : List String
  charts : List String
  teaser : String
deriving DecidableEq, Repr

/-! ## `ArticleEmbeddingProcessor` (embedding_processor.py) -/

/-- Constructor default `embedding_model="text-embedding-3-small"`. -/
def defaultModel : String := "text-embedding-3-small"

/-- Constructor default `text_chunk_size=1000`. -/
def defaultChunk : Nat := 1000

/-- `_prepare_text_for_embedding`:

```python
text_paragraphs = article['text'].split('\n')
initial_paragraphs = ' '.join(text_paragraphs[:3])
if len(initial_paragraphs) > self.text_chunk_size:
    initial_paragraphs = initial_paragraphs[:self.text_chunk_size] + '...'
categories = [article['main_category']] + article['secondary_categories']
category_text = ', '.join(categories)
combined_text = f"{article['title']} {article['title']} | {article['teaser']} | "\
               f"{initial_paragraphs} | Categories: {category_text}"
return combined_text.replace("\n", " ").strip()
``` -/
def prepare_text (text_chunk_size : Nat) (article : Article) : String :=
  let text_paragraphs := pySplitLines article.text
  let joined := String.intercalate " " (text_paragraphs.take 3)
  let initial_paragraphs :=
    if pyLen joined > text_chunk_size then pyTake text_chunk_size joined ++ "..." else joined
  let categories := article.main_category :: article.secondary_categories
  let category_text := String.intercalate ", " categories
  let combined_text :=
    article.title ++ " " ++ article.title ++ " | " ++ article.teaser ++ " | " ++
      initial_paragraphs ++ " | Categories: " ++ category_text
  pyStrip (pyReplaceNewline combined_text)

/-- The composition described by the specification, assembled from its
words: "`title` (doubled, to upweight it) + separator + `teaser` +
separator + first 3 paragraphs of body text (newline-delimited
paragraphs), truncated to a fixed character budget with a truncation
marker appended if cut, + separator + comma-joined category list (main
category first, then secondary categories)". -/
def prepare_text_spec (text_chunk_size : Nat) (article : Article) : String :=
  let firstParagraphs := String.intercalate " " ((pySplitLines article.text).take 3)
  let truncated :=
    if pyLen firstParagraphs > text_chunk_size then
      pyTake text_chunk_size firstParagraphs ++ "..."
    else firstParagraphs
  article.title ++ " " ++ article.title ++ " | " ++ article.teaser ++ " | " ++
    truncated ++ " | Categories: " ++
    String.intercalate ", " (article.main_category :: article.secondary_categories)

/-- Result of `process_articles`: the returned DataFrame rows, plus the
final in-memory tracking frame (`self.processed_articles`) and the final
contents of the tracking CSV file. -/
structure ProcessResult where
  rows : List EmbRow
  ledgerMem : List LedgerEntry
  ledgerFile : List LedgerEntry
deriving DecidableEq, Repr

/-- `process_articles(articles_data, force_reembed)`.

Oracles: `embed` models `self._get_embedding` (`none` = raised
`Exception`, caught by the per-article `try`), `parseTs` models
`int(datetime.strptime(article['date'], '%Y-%m-%d').timestamp())`
(`none` = raised, caught likewise), `today` models
`datetime.now().strftime('%Y-%m-%d')`.

Per item: skip when the slug is already in the in-memory frame and
`force_reembed` is false; otherwise embed the prepared text, build the
row, append a tracking entry to the in-memory frame and rewrite the
whole CSV file from that frame.  On a caught exception the item is
skipped and nothing is recorded. -/
def process_articles (embed : String → Option (List Int × Nat))
    (parseTs : String → Option Int) (today model : String) (chunk : Nat)
    (force_reembed : Bool) :
    List (String × Article) → List LedgerEntry → List LedgerEntry → ProcessResult
  | [], mem, file => ⟨[], mem, file⟩
  | (slug, article) :: items, mem, file =>
    if mem.any (fun e => e.slug == slug) && !force_reembed then
      process_articles embed parseTs today model chunk force_reembed items mem file
    else
      match embed (prepare_text chunk article) with
      | none => process_articles embed parseTs today model chunk force_reembed items mem file
      | some (vec, ntok) =>
        match parseTs article.date with
        | none => process_articles embed parseTs today model chunk force_reembed items mem file
        | some ts =>
          let row : EmbRow :=
            ⟨slug, today, model, ntok, vec, article.title, article.date, ts,
              article.url, article.main_category, article.secondary_categories,
              article.charts.map Prod.fst, article.teaser⟩
          let entry : LedgerEntry := ⟨slug, today, model, ntok⟩
          let r := process_articles embed parseTs today model chunk force_reembed items
            (mem ++ [entry]) (mem ++ [entry])
          ⟨row :: r.rows, r.ledgerMem, r.ledgerFile⟩

/-- `remove_from_tracking(slug)`: reads the tracking CSV, drops the rows
for `slug`, and rewrites the CSV.  It touches only the file; the
in-memory frame `self.processed_articles` is left as it was. -/
def remove_from_tracking (file : List LedgerEntry) (slug : String) : List LedgerEntry :=
  file.filter (fun e => !(e.slug == slug))

/-! ## `PineconeManager` (pinecone_manager.py)

The remote index is an abstract key/value store keyed by slug; `upsert`
replaces the full entry for a key. -/

/-- A Pinecone metadata value (string, numeric, or list of strings). -/
inductive MetaValue where
  | str (s : String)
  | num (n : Int)
  | strList (l : List String)
deriving DecidableEq, Repr

/-- One remote vector: id, values and metadata, as assembled in
`upsert_articles`. -/
structure PineVector where
  id : String
  values : List Int
  metadata : Store MetaValue
deriving DecidableEq, Repr

abbrev PIndex := Store PineVector

/-- The metadata dict built for each row in `upsert_articles`. -/
def rowMetadata (r : EmbRow) : Store MetaValue :=
  [("title", .str r.title), ("date", .str r.date),
   ("date_timestamp", .num r.date_timestamp), ("url", .str r.url),
   ("main_category", .str r.main_category), ("slug", .str r.slug),
   ("secondary_categories", .strList r.secondary_categories),
   ("charts", .strList r.charts), ("teaser", .str r.teaser)]

/-- `upsert_articles(embeddings_df)`: every row becomes a vector keyed by
its slug and is upserted.  The split into batches of `batch_size` does
not change the resulting index contents, so it is not reproduced. -/
def upsert_articles (index : PIndex) (rows : List EmbRow) : PIndex :=
  rows.foldl (fun ix r => storeInsert ix r.slug ⟨r.slug, r.embedding, rowMetadata r⟩) index

/-- `delete_article(slug)`. -/
def delete_article (index : PIndex) (slug : String) : PIndex :=
  storeErase index slug

/-- `valid_keys` from `update_article_metadata`. -/
def valid_keys : List String :=
  ["title", "date", "date_timestamp", "url", "main_category",
   "secondary_categories", "charts", "teaser"]

/-- The effect of `self.index.update(id=slug, set_metadata=metadata)`:
merge the given metadata fields into the entry for `slug`, if present. -/
def indexUpdateMetadata (index : PIndex) (slug : String)
    (metadata : Store MetaValue) : PIndex :=
  index.map (fun p =>
    if p.1 == slug then
      (p.1, { p.2 with metadata := metadata.foldl (fun acc kv => storeInsert acc kv.1 kv.2) p.2.metadata })
    else p)

/-- `update_article_metadata(slug, metadata)`: walk the metadata keys and
raise `ValueError` at the first key outside `valid_keys`; only when all
keys are valid is the remote update issued.  The first component is the
raised error (if any); the second is the resulting remote index. -/
def update_article_metadata (index : PIndex) (slug : String)
    (metadata : Store MetaValue) : Option String × PIndex :=
  match metadata.find? (fun kv => !(valid_keys.contains kv.1)) with
  | some kv => (some ("Invalid metadata key: " ++ kv.1), index)
  | none => (none, indexUpdateMetadata index slug metadata)

/-! ## `ArticleProcessor.update_articles` (article_processor.py)

The bulk catch-up sync.  Page fetching and per-article scraping are
oracles: `pages` is the list of listing pages that
`get_articles_on_page` would return for pages `1 .. total_pages` (with
`total_pages = min(get_page_count(), max_pages)` already applied), and
`scrape` models `scrape_article_content` (`none` = raised exception,
caught by the per-article `try` which logs and continues).

The result records, besides the final store and the `(new, updated)`
counters, the list of stubs for which a scrape was attempted and the
number of listing pages fetched, so that the early-termination policy is
observable. -/

structure SyncResult where
  store : Store Article
  newCount : Nat
  updatedCount : Nat
  scraped : List ArticleInfo
  pagesFetched : Nat
deriving Repr

/-- The inner per-page loop of `update_articles`: scrape each stub; on
success count it as new or updated and upsert it (saving the store after
each article); on a caught exception continue with the next stub. -/
def processStubs (scrape : ArticleInfo → Option Article) :
    List ArticleInfo → Store Article → Store Article × Nat × Nat × List ArticleInfo
  | [], st => (st, 0, 0, [])
  | a :: rest, st =>
    match scrape a with
    | none =>
      let r := processStubs scrape rest st
      (r.1, r.2.1, r.2.2.1, a :: r.2.2.2)
    | some content =>
      let isUpdate := storeContains st a.slug
      let r := processStubs scrape rest (storeInsert st a.slug content)
      (r.1, (if isUpdate then 0 else 1) + r.2.1,
        (if isUpdate then 1 else 0) + r.2.2.1, a :: r.2.2.2)

/-- `update_articles(max_pages, skip_existing)`, one recursive step per
`while` iteration.  With `skip_existing` the page is filtered down to
unknown slugs and the walk stops when nothing remains; without it the
walk stops when every stub on the page is already known, and otherwise
every stub on the page is re-scraped. -/
def update_articles (scrape : ArticleInfo → Option Article) (skip_existing : Bool) :
    List (List ArticleInfo) → Store Article → SyncResult
  | [], st => ⟨st, 0, 0, [], 0⟩
  | page :: rest, st =>
    if skip_existing then
      let articles := page.filter (fun a => !(storeContains st a.slug))
      if articles.isEmpty then
        ⟨st, 0, 0, [], 1⟩
      else
        let p := processStubs scrape articles st
        let r := update_articles scrape skip_existing rest p.1
        ⟨r.store, p.2.1 + r.newCount, p.2.2.1 + r.updatedCount,
          p.2.2.2 ++ r.scraped, 1 + r.pagesFetched⟩
    else
      if page.all (fun a => storeContains st a.slug) then
        ⟨st, 0, 0, [], 1⟩
      else
        let p := processStubs scrape page st
        let r := update_articles scrape skip_existing rest p.1
        ⟨r.store, p.2.1 + r.newCount, p.2.2.1 + r.updatedCount,
          p.2.2.2 ++ r.scraped, 1 + r.pagesFetched⟩

/-! ## `ArticleUpdater.update_single_article` (article_updater.py) -/

/-- Python truthiness of `old_slug: Optional[str]`: `None` and `""` are
falsy. -/
def truthy : Option String → Bool
  | none => false
  | some s => !(s == "")

/-- `old_slug` coerced to the string actually used after a truthiness
check passed. -/
def oldStr (o : Option String) : String := o.getD ""

/-- `new_slug = identifier.split('/')[-1] if '/' in identifier else identifier`. -/
def resolveSlug (identifier : String) : String :=
  if identifier.toList.contains '/' then
    String.mk ((splitOnChar '/' identifier.toList).getLastD [])
  else identifier

/-- The URL actually fetched: the identifier itself when it is a URL,
otherwise `f"https://www.economicsobservatory.com/{new_slug}"`. -/
def resolveUrl (identifier : String) : String :=
  if identifier.toList.contains '/' then identifier
  else "https://www.economicsobservatory.com/" ++ resolveSlug identifier

/-- The mutable state touched by `update_single_article`:
`article_processor.articles` and its JSON file, the embedding tracking
frame and CSV, and the remote Pinecone index. -/
structure UpdaterState where
  articles : Store Article
  articlesFile : Store Article
  ledgerMem : List LedgerEntry
  ledgerFile : List LedgerEntry
  index : PIndex
deriving DecidableEq, Repr

/-- The external effects of `update_single_article`, as oracles.
`fetchInfo` models `get_article_info_from_url` and `scrape` models
`scrape_article_content` (`none` = raised exception); `embed`, `parseTs`
and `today` are as in `process_articles`; `upsertOk` / `deleteOk` tell
whether the Pinecone upsert / delete calls raise. -/
structure Oracles where
  fetchInfo : String → Option ArticleInfo
  scrape : ArticleInfo → Option Article
  embed : String → Option (List Int × Nat)
  parseTs : String → Option Int
  today : String
  upsertOk : Bool
  deleteOk : Bool

/-- The `if force_reembed:` block of `update_single_article`, starting
after the articles dictionary has been updated and saved (state `st1`):
remove tracking entries for the old (if truthy) and new slugs, re-embed
via `process_articles`, and if a row was produced upsert it and delete
the old vector (if an old slug was given).  Returns the boolean reaching
the caller together with the state; a `false` models the outer `except`
having caught the raised exception. -/
def reembedStep (O : Oracles) (st1 : UpdaterState) (new_slug : String)
    (old_slug : Option String) (content : Article) : Bool × UpdaterState :=
  let lf1 :=
    if truthy old_slug then remove_from_tracking st1.ledgerFile (oldStr old_slug)
    else st1.ledgerFile
  let lf2 := remove_from_tracking lf1 new_slug
  let pr := process_articles O.embed O.parseTs O.today defaultModel defaultChunk true
    [(new_slug, content)] st1.ledgerMem lf2
  let st2 := { st1 with ledgerMem := pr.ledgerMem, ledgerFile := pr.ledgerFile }
  if !pr.rows.isEmpty then
    if O.upsertOk then
      let st3 := { st2 with index := upsert_articles st2.index pr.rows }
      if truthy old_slug then
        if O.deleteOk then
          (true, { st3 with index := delete_article st3.index (oldStr old_slug) })
        else (false, st3)
      else (true, st3)
    else (false, st2)
  else (false, st2)

/-- `update_single_article(identifier, old_slug, force_reembed)`.

The whole body runs inside `try: ... except Exception: return False`, so
every modelled failure turns into `(false, state-so-far)`.  On the happy
path: resolve the slug and URL, fetch the stub info, scrape fresh
content, insert it under the new slug, delete the old slug from the
articles dictionary when it is truthy and present (note that this check
runs *after* the insertion), save the dictionary, then optionally
re-embed (`reembedStep`). -/
def update_single_article (O : Oracles) (st : UpdaterState) (identifier : String)
    (old_slug : Option String) (force_reembed : Bool) : Bool × UpdaterState :=
  let new_slug := resolveSlug identifier
  match O.fetchInfo (resolveUrl identifier) with
  | none => (false, st)
  | some info =>
    match O.scrape info with
    | none => (false, st)
    | some content =>
      let articles1 := storeInsert st.articles new_slug content
      let articles2 :=
        if truthy old_slug && storeContains articles1 (oldStr old_slug) then
          storeErase articles1 (oldStr old_slug)
        else articles1
      let st1 := { st with articles := articles2, articlesFile := articles2 }
      if force_reembed then reembedStep O st1 new_slug old_slug content
      else (true, st1)

/-! # Claims -/

/-! ## C6 — date parsing -/

/-- C6, counterexample.  The claim says the inputs `"8 Jan 21"` and
`"8 Jan 2021"` parse to `"2021-01-08"`, but `parse_date` indexes
`date.split('• ')[1]`, which raises `IndexError` in the `try` arm and
again in the `except` arm when the input contains no `'• '` separator;
on these two literal inputs the exception escapes instead of a value
being returned. -/
theorem parse_date_counterexample :
    parse_date "8 Jan 21" = none ∧ parse_date "8 Jan 2021" = none := by
  constructor <;> decide

/-- C6, amended: website date strings carry a `'• '` separator before the
date (e.g. `"Articles • 8 Jan 21"` on the listing page); for such inputs
the two-digit-year and four-digit-year styles both normalize to ISO
`"2021-01-08"`. -/
theorem parse_date_normalizes :
    parse_date "Articles • 8 Jan 21" = some "2021-01-08" ∧
    parse_date "Articles • 8 Jan 2021" = some "2021-01-08" := by
  constructor <;> decide

/-! ## C7 — chart de-duplication -/

theorem firstIndexOf_cons_self (x : String × String) (l : List (String × String)) :
    firstIndexOf x (x :: l) = 0 := by
  simp [firstIndexOf]

theorem firstIndexOf_cons_ne (x y : String × String) (l : List (String × String))
    (h : y ≠ x) : firstIndexOf x (y :: l) = firstIndexOf x l + 1 := by
  simp [firstIndexOf, h]

theorem mem_extract_charts_dedup (l : List (String × String)) (x : String × String) :
    x ∈ extract_charts_dedup l ↔ x ∈ l := by
  induction l using extract_charts_dedup.induct with
  | case1 => simp [extract_charts_dedup]
  | case2 hd tl ih =>
    rw [extract_charts_dedup]
    by_cases hx : x = hd
    · subst hx; simp
    · simp only [List.mem_cons, hx, false_or, ih, List.mem_filter,
        neqPred_eq_true]
      exact ⟨fun h => h.1, fun h => ⟨h, hx⟩⟩

theorem nodup_extract_charts_dedup (l : List (String × String)) :
    (extract_charts_dedup l).Nodup := by
  induction l using extract_charts_dedup.induct with
  | case1 => simp [extract_charts_dedup]
  | case2 hd tl ih =>
    rw [extract_charts_dedup]
    refine List.Pairwise.cons (fun b hb => ?_) ih
    intro hbd
    subst hbd
    have := (mem_extract_charts_dedup _ _).mp hb
    have := (neqPred_eq_true hd hd).mp (List.of_mem_filter this)
    exact this rfl

/-- Relative order is preserved by `filter`: first-occurrence positions
in the filtered list compare like those in the original list. -/
theorem firstIndexOf_lt_of_filter (p : String × String → Bool) :
    ∀ (l : List (String × String)) (b c : String × String),
      b ∈ l.filter p → c ∈ l.filter p →
      firstIndexOf b (l.filter p) < firstIndexOf c (l.filter p) →
      firstIndexOf b l < firstIndexOf c l := by
  intro l
  induction l with
  | nil => intro b c hb _ _; simp at hb
  | cons x xs ih =>
    intro b c hb hc hlt
    by_cases hpx : p x = true
    · rw [List.filter_cons_of_pos hpx] at hb hc hlt
      by_cases hbx : x = b
      · subst hbx
        have hcx : x ≠ c := by
          intro h
          rw [← h, firstIndexOf_cons_self] at hlt
          exact Nat.not_succ_le_zero _ hlt
        rw [firstIndexOf_cons_self]
        rw [firstIndexOf_cons_ne c x _ hcx]
        exact Nat.succ_pos _
      · by_cases hcx : x = c
        · subst hcx
          rw [firstIndexOf_cons_self, firstIndexOf_cons_ne b x _ hbx] at hlt
          exact absurd hlt (Nat.not_succ_le_zero _)
        · rw [firstIndexOf_cons_ne b x _ hbx, firstIndexOf_cons_ne c x _ hcx] at hlt ⊢
          have hb' : b ∈ xs.filter p := by
            rcases List.mem_cons.mp hb with h | h
            · exact absurd h.symm hbx
            · exact h
          have hc' : c ∈ xs.filter p := by
            rcases List.mem_cons.mp hc with h | h
            · exact absurd h.symm hcx
            · exact h
          exact Nat.succ_lt_succ (ih b c hb' hc' (Nat.lt_of_succ_lt_succ hlt))
    · rw [List.filter_cons_of_neg hpx] at hb hc hlt
      have hbx : x ≠ b := by
        intro h; rw [h] at hpx
        exact hpx (List.of_mem_filter hb)
      have hcx : x ≠ c := by
        intro h; rw [h] at hpx
        exact hpx (List.of_mem_filter hc)
      rw [firstIndexOf_cons_ne b x _ hbx, firstIndexOf_cons_ne c x _ hcx]
      exact Nat.succ_lt_succ (ih b c hb hc hlt)

theorem pairwise_firstIndexOf_extract_charts_dedup (l : List (String × String)) :
    (extract_charts_dedup l).Pairwise
      (fun a b => firstIndexOf a l < firstIndexOf b l) := by
  induction l using extract_charts_dedup.induct with
  | case1 => simp [extract_charts_dedup]
  | case2 hd tl ih =>
    rw [extract_charts_dedup]
    refine List.Pairwise.cons (fun b hb => ?_) ?_
    · have hbf : b ∈ tl.filter (neqPred hd) :=
        (mem_extract_charts_dedup _ _).mp hb
      have hbd : hd ≠ b :=
        fun h => (neqPred_eq_true hd b).mp (List.of_mem_filter hbf) h.symm
      rw [firstIndexOf_cons_self, firstIndexOf_cons_ne b hd _ hbd]
      exact Nat.succ_pos _
    · refine List.Pairwise.imp_of_mem ?_ ih
      intro a b ha hb hlt
      have haf : a ∈ tl.filter (neqPred hd) :=
        (mem_extract_charts_dedup _ _).mp ha
      have hbf : b ∈ tl.filter (neqPred hd) :=
        (mem_extract_charts_dedup _ _).mp hb
      have had : hd ≠ a :=
        fun h => (neqPred_eq_true hd a).mp (List.of_mem_filter haf) h.symm
      have hbd : hd ≠ b :=
        fun h => (neqPred_eq_true hd b).mp (List.of_mem_filter hbf) h.symm
      rw [firstIndexOf_cons_ne a hd _ had, firstIndexOf_cons_ne b hd _ hbd]
      exact Nat.succ_lt_succ
        (firstIndexOf_lt_of_filter _ tl a b haf hbf hlt)

/-- C7: chart extraction de-duplication returns each distinct
`(title, source)` pair exactly once (same members, no duplicates),
ordered by the position of its first occurrence in the input
(`firstIndexOf` is the index of the first occurrence). -/
theorem charts_dedup_distinct_first_occurrence (l : List (String × String)) :
    (∀ x, x ∈ extract_charts_dedup l ↔ x ∈ l) ∧
    (extract_charts_dedup l).Nodup ∧
    (extract_charts_dedup l).Pairwise
      (fun a b => firstIndexOf a l < firstIndexOf b l) :=
  ⟨fun x => mem_extract_charts_dedup l x, nodup_extract_charts_dedup l,
    pairwise_firstIndexOf_extract_charts_dedup l⟩

/-! ## C8 — embedding text preparation -/

/-- A concrete article for evaluating the embedding-text composition. -/
def sampleArticle : Article :=
  { title := "How is growth measured"
    date := "2021-01-08"
    slug := "how-is-growth-measured"
    url := "https://www.economicsobservatory.com/how-is-growth-measured"
    main_category := "Economy"
    author := ["A. Author"]
    secondary_categories := ["Trade", "Data"]
    related_articles := []
    charts := [("Chart one", "ONS")]
    teaser := "A short teaser."
    text := "Paragraph one.\nParagraph two.\nParagraph three.\nParagraph four." }

/-- An article whose teaser contains a newline, as scraped teasers
(`get_text()` of the intro div) realistically do. -/
def newlineTeaserArticle : Article :=
  { sampleArticle with teaser := "First teaser line.\nSecond teaser line." }

/-- C8, counterexample.  The claim says the prepared text *equals* the
specified composition for every ArticleRecord, but the code finishes
with `.replace("\n", " ").strip()`: on an article whose teaser contains
a newline the prepared text differs from the claimed composition (the
newline has become a space). -/
theorem prepare_text_counterexample :
    prepare_text defaultChunk newlineTeaserArticle ≠
      prepare_text_spec defaultChunk newlineTeaserArticle := by decide

/-- C8, amended: for every ArticleRecord and chunk-size configuration
the prepared embedding text equals the specified composition — title
doubled, separator, teaser, separator, first three newline-delimited
paragraphs truncated to the character budget with a `"..."` marker if
cut, separator, comma-joined categories with the main category first —
*with the code's final normalization applied*: newlines replaced by
spaces and surrounding whitespace stripped.  Determinism (byte-identical
output across calls) holds because `prepare_text` is a pure function of
the article and the chunk size. -/
theorem prepare_text_normalized_composition (text_chunk_size : Nat) (article : Article) :
    prepare_text text_chunk_size article =
      pyStrip (pyReplaceNewline (prepare_text_spec text_chunk_size article)) := rfl

/-! ## C9 — metadata-key validation -/

/-- C9: `update_article_metadata` rejects any metadata dictionary holding
a key outside `valid_keys` by raising `ValueError` before the remote
`index.update` call is issued, so the remote index is unchanged. -/
theorem metadata_validation_rejects (index : PIndex) (slug : String)
    (metadata : Store MetaValue)
    (h : ∃ kv ∈ metadata, valid_keys.contains kv.1 = false) :
    (update_article_metadata index slug metadata).1.isSome = true ∧
    (update_article_metadata index slug metadata).2 = index := by
  have hfind : (metadata.find? (fun kv => !(valid_keys.contains kv.1))).isSome := by
    rw [List.find?_isSome]
    obtain ⟨kv, hmem, hval⟩ := h
    exact ⟨kv, hmem, by simpa using hval⟩
  unfold update_article_metadata
  cases hf : metadata.find? (fun kv => !(valid_keys.contains kv.1)) with
  | none => rw [hf] at hfind; simp at hfind
  | some kv => simp

/-- C9 witness: a metadata dictionary with the unknown key `"slugs"` is
rejected and the index (here holding one vector) is untouched. -/
theorem metadata_validation_rejects_witness :
    (∃ kv ∈ [(("slugs" : String)), (("title" : String))].map
        (fun k => (k, MetaValue.str "x")), valid_keys.contains kv.1 = false) ∧
    (update_article_metadata [("a-slug", ⟨"a-slug", [1], []⟩)] "a-slug"
        [("slugs", MetaValue.str "x"), ("title", MetaValue.str "x")]).1.isSome = true ∧
    (update_article_metadata [("a-slug", ⟨"a-slug", [1], []⟩)] "a-slug"
        [("slugs", MetaValue.str "x"), ("title", MetaValue.str "x")]).2 =
      [("a-slug", ⟨"a-slug", [1], []⟩)] :=
  ⟨by decide,
    metadata_validation_rejects [("a-slug", ⟨"a-slug", [1], []⟩)] "a-slug"
      [("slugs", MetaValue.str "x"), ("title", MetaValue.str "x")] (by decide)⟩

/-! ## C2 — ledger consistency across a forced re-embed cycle

The claim fails on the code: `remove_from_tracking` rewrites only the
tracking CSV and leaves the in-memory frame `self.processed_articles`
untouched, and `process_articles` then rewrites the CSV from that stale
frame plus the new row — resurrecting the entry that was just removed.
With one prior entry for the slug, the cycle ends with two current
entries instead of one. -/

/-- An article that embeds successfully in the C2 scenario. -/
def c2Article : Article :=
  { title := "T", date := "2021-01-08", slug := "reembed-me", url := "u"
    main_category := "M", author := [], secondary_categories := []
    related_articles := [], charts := [], teaser := "z", text := "body" }

/-- The ledger as loaded at processor start: one prior entry for
`"reembed-me"` in both the in-memory frame and the CSV. -/
def c2Ledger : List LedgerEntry := [⟨"reembed-me", "2024-01-01", defaultModel, 3⟩]

/-- C2: a forced re-embed cycle — `remove_from_tracking("reembed-me")`
followed by a successful
`process_articles({"reembed-me": ...}, force_reembed=True)` — leaves the
rewritten tracking file with TWO entries for the slug (the stale prior
entry plus the fresh one), although the removal alone had emptied the
file.  The membership half of the claim does hold (the pair is reported
as embedded). -/
theorem ledger_duplicates_after_reembed_cycle :
    remove_from_tracking c2Ledger "reembed-me" = [] ∧
    (process_articles (fun _ => some ([1], 5)) (fun _ => some 1610064000)
        "2025-01-01" defaultModel defaultChunk true [("reembed-me", c2Article)]
        c2Ledger (remove_from_tracking c2Ledger "reembed-me")).ledgerFile.countP
      (fun e => e.slug == "reembed-me") = 2 ∧
    (process_articles (fun _ => some ([1], 5)) (fun _ => some 1610064000)
        "2025-01-01" defaultModel defaultChunk true [("reembed-me", c2Article)]
        c2Ledger (remove_from_tracking c2Ledger "reembed-me")).ledgerFile.any
      (fun e => e.slug == "reembed-me" && e.embedding_model == defaultModel) = true := by
  refine ⟨by decide, ?_, ?_⟩ <;> decide

/-! ## C10 — old_slug equal to the resolved slug deletes the article -/

/-- `reembedStep` mutates only the ledger and index fields: the articles
dictionary and its persisted file are exactly those of the state it was
given (the force-reembed block never touches `self.articles` again). -/
theorem reembedStep_preserves_articles (O : Oracles) (st1 : UpdaterState)
    (new_slug : String) (old_slug : Option String) (content : Article) :
    (reembedStep O st1 new_slug old_slug content).2.articles = st1.articles ∧
    (reembedStep O st1 new_slug old_slug content).2.articlesFile = st1.articlesFile := by
  unfold reembedStep
  dsimp only
  split <;> split <;> first
    | exact ⟨rfl, rfl⟩
    | (split <;> first
        | exact ⟨rfl, rfl⟩
        | (split <;> exact ⟨rfl, rfl⟩))

/-- C10, amended: when `old_slug` is supplied, non-empty, and equals the
(then also non-empty) slug resolved from the identifier, the
store-update step first inserts the fresh record under that slug and
then deletes it again — `old_slug in self.article_processor.articles` is
checked *after* the insertion — so the saved articles dictionary
contains no entry for the slug, whatever `force_reembed` is.  (For the
empty resolved slug of a URL ending in `/`, Python truthiness skips the
deletion and the inserted record stays: see the counterexample.) -/
theorem self_rename_removes_article (O : Oracles) (st : UpdaterState)
    (identifier : String) (info : ArticleInfo) (content : Article)
    (force_reembed : Bool)
    (hne : resolveSlug identifier ≠ "")
    (hf : O.fetchInfo (resolveUrl identifier) = some info)
    (hs : O.scrape info = some content) :
    storeContains
      (update_single_article O st identifier (some (resolveSlug identifier))
        force_reembed).2.articles (resolveSlug identifier) = false ∧
    storeContains
      (update_single_article O st identifier (some (resolveSlug identifier))
        force_reembed).2.articlesFile (resolveSlug identifier) = false := by
  have htr : truthy (some (resolveSlug identifier)) = true := by
    simp [truthy, hne]
  have hc1 : storeContains (storeInsert st.articles (resolveSlug identifier) content)
      (oldStr (some (resolveSlug identifier))) = true := by
    simp only [oldStr, Option.getD_some]
    exact storeContains_insert_self _ _ _
  unfold update_single_article
  rw [hf]
  dsimp only
  rw [hs]
  dsimp only
  rw [htr, hc1]
  simp only [Bool.true_and, if_true]
  have herase : storeContains
      (storeErase (storeInsert st.articles (resolveSlug identifier) content)
        (oldStr (some (resolveSlug identifier)))) (resolveSlug identifier) = false := by
    simp only [oldStr, Option.getD_some]
    exact storeContains_erase_self _ _
  cases force_reembed with
  | false =>
    rw [if_neg Bool.false_ne_true]
    exact ⟨herase, herase⟩
  | true =>
    rw [if_pos rfl]
    have hp := reembedStep_preserves_articles O
      { st with
          articles := storeErase (storeInsert st.articles (resolveSlug identifier) content)
            (oldStr (some (resolveSlug identifier)))
          articlesFile := storeErase (storeInsert st.articles (resolveSlug identifier) content)
            (oldStr (some (resolveSlug identifier))) }
      (resolveSlug identifier) (some (resolveSlug identifier)) content
    rw [hp.1, hp.2]
    exact ⟨herase, herase⟩

/-- A stub and article for exercising the updater on concrete inputs. -/
def sampleInfo : ArticleInfo :=
  { slug := "growth-article", title := "Growth"
    url := "https://www.economicsobservatory.com/growth-article"
    date := "2021-01-08", main_category := "Economy" }

/-- Oracles for a fully successful update run. -/
def happyOracles : Oracles :=
  { fetchInfo := fun _ => some sampleInfo
    scrape := fun _ => some sampleArticle
    embed := fun _ => some ([2, 3], 4)
    parseTs := fun _ => some 1610064000
    today := "2025-02-03"
    upsertOk := true
    deleteOk := true }

/-- C10 witness: updating `"growth-article"` with
`old_slug="growth-article"` on a store that already holds that slug
leaves the saved store without it. -/
theorem self_rename_removes_article_witness :
    storeContains
      (update_single_article happyOracles
        { articles := [("growth-article", sampleArticle)]
          articlesFile := [("growth-article", sampleArticle)]
          ledgerMem := [], ledgerFile := [], index := [] }
        "growth-article" (some "growth-article") true).2.articles "growth-article" = false ∧
    storeContains
      (update_single_article happyOracles
        { articles := [("growth-article", sampleArticle)]
          articlesFile := [("growth-article", sampleArticle)]
          ledgerMem := [], ledgerFile := [], index := [] }
        "growth-article" (some "growth-article") true).2.articlesFile "growth-article" = false :=
  self_rename_removes_article happyOracles
    { articles := [("growth-article", sampleArticle)]
      articlesFile := [("growth-article", sampleArticle)]
      ledgerMem := [], ledgerFile := [], index := [] }
    "growth-article" sampleInfo sampleArticle true (by decide) (by decide) (by decide)

/-- C10, counterexample.  The claim as frozen covers every call in which
`old_slug` equals the slug resolved from the identifier — including the
empty slug a URL ending in `/` resolves to.  There the freshly scraped
record is inserted under `""`, but `if old_slug and ...` is falsy for
`""`, so the deletion is skipped: the saved store still *contains* an
entry for the slug, and the call succeeds. -/
theorem self_rename_counterexample :
    resolveSlug "https://www.economicsobservatory.com/growth-article/" = "" ∧
    (update_single_article happyOracles
      { articles := [], articlesFile := [], ledgerMem := [], ledgerFile := []
        index := [] }
      "https://www.economicsobservatory.com/growth-article/" (some "") false).1
      = true ∧
    storeContains (update_single_article happyOracles
      { articles := [], articlesFile := [], ledgerMem := [], ledgerFile := []
        index := [] }
      "https://www.economicsobservatory.com/growth-article/" (some "") false).2.articles
      "" = true ∧
    storeContains (update_single_article happyOracles
      { articles := [], articlesFile := [], ledgerMem := [], ledgerFile := []
        index := [] }
      "https://www.economicsobservatory.com/growth-article/" (some "") false).2.articlesFile
      "" = true := by
  refine ⟨?_, ?_, ?_, ?_⟩ <;> decide

/-! ## C3 — update_single_article converts failures to False -/

/-- C3: `update_single_article` never raises — its entire body sits in
`try: ... except Exception: return False` — and each modelled internal
failure yields `false`: (a) a raised stub-info fetch, (b) a raised
scrape, (c) with `force_reembed`, an embedding that produces no result
(the returned DataFrame is empty) — in which case no upsert and no
delete is issued against the vector index, which is returned unchanged —
(d) a raised Pinecone upsert, and (e) a raised old-vector delete. -/
theorem update_failures_return_false (O : Oracles) (st : UpdaterState)
    (identifier : String) (old_slug : Option String) :
    (O.fetchInfo (resolveUrl identifier) = none →
      ∀ force_reembed, update_single_article O st identifier old_slug force_reembed
        = (false, st)) ∧
    ((∀ i, O.scrape i = none) →
      ∀ force_reembed, update_single_article O st identifier old_slug force_reembed
        = (false, st)) ∧
    ((∀ t, O.embed t = none) →
      (update_single_article O st identifier old_slug true).1 = false ∧
      (update_single_article O st identifier old_slug true).2.index = st.index) ∧
    (O.upsertOk = false →
      (update_single_article O st identifier old_slug true).1 = false) ∧
    (truthy old_slug = true → O.deleteOk = false →
      (update_single_article O st identifier old_slug true).1 = false) := by
  refine ⟨?_, ?_, ?_, ?_, ?_⟩
  · intro h force_reembed
    unfold update_single_article
    rw [h]
  · intro h force_reembed
    unfold update_single_article
    cases hfi : O.fetchInfo (resolveUrl identifier) with
    | none => rfl
    | some info =>
      dsimp only
      rw [h info]
  · intro h
    unfold update_single_article
    cases hfi : O.fetchInfo (resolveUrl identifier) with
    | none => exact ⟨rfl, rfl⟩
    | some info =>
      dsimp only
      cases hsc : O.scrape info with
      | none => exact ⟨rfl, rfl⟩
      | some content =>
        dsimp only
        rw [if_pos rfl]
        unfold reembedStep
        simp only [process_articles, Bool.not_true, Bool.and_false,
          Bool.false_eq_true, if_false, h]
        exact ⟨rfl, rfl⟩
  · intro h
    unfold update_single_article
    cases hfi : O.fetchInfo (resolveUrl identifier) with
    | none => rfl
    | some info =>
      dsimp only
      cases hsc : O.scrape info with
      | none => rfl
      | some content =>
        dsimp only
        rw [if_pos rfl]
        unfold reembedStep
        dsimp only
        rw [h]
        rw [if_neg Bool.false_ne_true]
        repeat' split
        all_goals rfl
  · intro hto hdel
    unfold update_single_article
    cases hfi : O.fetchInfo (resolveUrl identifier) with
    | none => rfl
    | some info =>
      dsimp only
      cases hsc : O.scrape info with
      | none => rfl
      | some content =>
        dsimp only
        rw [if_pos rfl]
        unfold reembedStep
        dsimp only
        rw [hdel]
        rw [if_neg Bool.false_ne_true]
        simp only [if_pos hto]
        repeat' split
        all_goals rfl

/-- Oracles whose embedding call always fails. -/
def embedFailOracles : Oracles :=
  { happyOracles with embed := fun _ => none }

/-- C3 witness: with a failing embedding, the update reports `false` and
the vector index (holding one unrelated vector) is untouched. -/
theorem update_failures_return_false_witness :
    (update_single_article embedFailOracles
      { articles := [], articlesFile := [], ledgerMem := [], ledgerFile := []
        index := [("other", ⟨"other", [9], []⟩)] }
      "growth-article" none true).1 = false ∧
    (update_single_article embedFailOracles
      { articles := [], articlesFile := [], ledgerMem := [], ledgerFile := []
        index := [("other", ⟨"other", [9], []⟩)] }
      "growth-article" none true).2.index = [("other", ⟨"other", [9], []⟩)] :=
  (update_failures_return_false embedFailOracles
    { articles := [], articlesFile := [], ledgerMem := [], ledgerFile := []
      index := [("other", ⟨"other", [9], []⟩)] }
    "growth-article" none).2.2.1 (fun _ => rfl)

/-! ## C1 — rename invariant -/

/-- An article sitting under the old slug before the rename. -/
def oldArticle : Article :=
  { sampleArticle with slug := "old-growth-article"
                       url := "https://www.economicsobservatory.com/old-growth-article" }

/-- A state whose articles store and vector index both hold the empty
slug `""` (reachable: a URL ending in `/` resolves to the slug `""`). -/
def emptySlugState : UpdaterState :=
  { articles := [("", oldArticle)]
    articlesFile := [("", oldArticle)]
    ledgerMem := [], ledgerFile := []
    index := [("", ⟨"", [7], []⟩)] }

/-- C1, counterexample.  The claim quantifies over every successful
update called with an old slug different from the new one and present in
the store; `old_slug = ""` satisfies that, but Python's
`if old_slug and ...` treats the empty string as falsy, so the old-slug
deletion from the articles dictionary, the old-ledger removal and the
old-vector deletion are all skipped while the update still returns
`True`: afterwards the store and the index still contain the old slug. -/
theorem rename_invariant_counterexample :
    (update_single_article happyOracles emptySlugState "growth-article"
      (some "") true).1 = true ∧
    storeContains emptySlugState.articles "" = true ∧
    ("" : String) ≠ resolveSlug "growth-article" ∧
    storeContains (update_single_article happyOracles emptySlugState "growth-article"
      (some "") true).2.articles "" = true ∧
    storeContains (update_single_article happyOracles emptySlugState "growth-article"
      (some "") true).2.index "" = true := by
  refine ⟨?_, ?_, ?_, ?_, ?_⟩ <;> decide

/-- C1, amended: for every successful rename update whose supplied
old slug is non-empty (Python truthiness: `old_slug=""` behaves as if no
old slug were supplied), different from the new slug, and present in the
store, the articles store afterwards contains the new slug and not the
old one, and the vector index contains the new slug and not the old
one. -/
theorem rename_invariant (O : Oracles) (st : UpdaterState) (identifier : String)
    (o : String) (ho : o ≠ "") (hne : o ≠ resolveSlug identifier)
    (hpres : storeContains st.articles o = true)
    (hsucc : (update_single_article O st identifier (some o) true).1 = true) :
    storeContains (update_single_article O st identifier (some o) true).2.articles
      (resolveSlug identifier) = true ∧
    storeContains (update_single_article O st identifier (some o) true).2.articles
      o = false ∧
    storeContains (update_single_article O st identifier (some o) true).2.index
      (resolveSlug identifier) = true ∧
    storeContains (update_single_article O st identifier (some o) true).2.index
      o = false := by
  have htr : truthy (some o) = true := by simp [truthy, ho]
  cases hfi : O.fetchInfo (resolveUrl identifier) with
  | none =>
    exfalso
    unfold update_single_article at hsucc
    rw [hfi] at hsucc
    exact absurd hsucc Bool.false_ne_true
  | some info =>
    cases hsc : O.scrape info with
    | none =>
      exfalso
      unfold update_single_article at hsucc
      rw [hfi] at hsucc
      dsimp only at hsucc
      rw [hsc] at hsucc
      exact absurd hsucc Bool.false_ne_true
    | some content =>
      have hc1 : storeContains
          (storeInsert st.articles (resolveSlug identifier) content) o = true :=
        (storeContains_insert_iff _ _ _ _).mpr (Or.inr hpres)
      cases hemb : O.embed (prepare_text defaultChunk content) with
      | none =>
        exfalso
        simp only [update_single_article, reembedStep, process_articles,
          hfi, hsc, hemb, htr, hc1, oldStr, Option.getD_some, Bool.not_true,
          Bool.and_false, Bool.false_eq_true, Bool.true_and, if_false, if_true,
          eq_self_iff_true, List.isEmpty_nil, Bool.not_true] at hsucc
      | some vt =>
        obtain ⟨vec, ntok⟩ := vt
        cases hts : O.parseTs content.date with
        | none =>
          exfalso
          simp only [update_single_article, reembedStep, process_articles,
            hfi, hsc, hemb, hts, htr, hc1, oldStr, Option.getD_some, Bool.not_true,
            Bool.and_false, Bool.false_eq_true, Bool.true_and, if_false, if_true,
            eq_self_iff_true, List.isEmpty_nil, Bool.not_true] at hsucc
        | some ts =>
          cases hup : O.upsertOk with
          | false =>
            exfalso
            simp only [update_single_article, reembedStep, process_articles,
              hfi, hsc, hemb, hts, hup, htr, hc1, oldStr, Option.getD_some,
              Bool.not_true, Bool.and_false, Bool.false_eq_true, Bool.true_and,
              if_false, if_true, eq_self_iff_true, List.isEmpty_cons,
              Bool.not_false] at hsucc
          | true =>
            cases hdel : O.deleteOk with
            | false =>
              exfalso
              simp only [update_single_article, reembedStep, process_articles,
                hfi, hsc, hemb, hts, hup, hdel, htr, hc1, oldStr, Option.getD_some,
                Bool.not_true, Bool.and_false, Bool.false_eq_true, Bool.true_and,
                if_false, if_true, eq_self_iff_true, List.isEmpty_cons,
                Bool.not_false] at hsucc
            | true =>
              simp only [update_single_article, reembedStep, process_articles,
                hfi, hsc, hemb, hts, hup, hdel, htr, hc1, oldStr, Option.getD_some,
                Bool.not_true, Bool.and_false, Bool.false_eq_true, Bool.true_and,
                if_false, if_true, eq_self_iff_true, List.isEmpty_cons,
                Bool.not_false, delete_article, upsert_articles, List.foldl]
              refine ⟨?_, ?_, ?_, ?_⟩
              · exact (storeContains_erase_iff _ _ _).mpr
                  ⟨storeContains_insert_self _ _ _, Ne.symm hne⟩
              · exact storeContains_erase_self _ _
              · exact (storeContains_erase_iff _ _ _).mpr
                  ⟨storeContains_insert_self _ _ _, Ne.symm hne⟩
              · exact storeContains_erase_self _ _

/-- C1 witness: a fully successful rename from `"old-growth-article"` to
`"growth-article"`, with the old slug present in both store and index. -/
theorem rename_invariant_witness :
    storeContains (update_single_article happyOracles
      { articles := [("old-growth-article", oldArticle)]
        articlesFile := [("old-growth-article", oldArticle)]
        ledgerMem := [⟨"old-growth-article", "2024-01-01", defaultModel, 3⟩]
        ledgerFile := [⟨"old-growth-article", "2024-01-01", defaultModel, 3⟩]
        index := [("old-growth-article", ⟨"old-growth-article", [7], []⟩)] }
      "growth-article" (some "old-growth-article") true).2.articles
      (resolveSlug "growth-article") = true ∧
    storeContains (update_single_article happyOracles
      { articles := [("old-growth-article", oldArticle)]
        articlesFile := [("old-growth-article", oldArticle)]
        ledgerMem := [⟨"old-growth-article", "2024-01-01", defaultModel, 3⟩]
        ledgerFile := [⟨"old-growth-article", "2024-01-01", defaultModel, 3⟩]
        index := [("old-growth-article", ⟨"old-growth-article", [7], []⟩)] }
      "growth-article" (some "old-growth-article") true).2.articles
      "old-growth-article" = false ∧
    storeContains (update_single_article happyOracles
      { articles := [("old-growth-article", oldArticle)]
        articlesFile := [("old-growth-article", oldArticle)]
        ledgerMem := [⟨"old-growth-article", "2024-01-01", defaultModel, 3⟩]
        ledgerFile := [⟨"old-growth-article", "2024-01-01", defaultModel, 3⟩]
        index := [("old-growth-article", ⟨"old-growth-article", [7], []⟩)] }
      "growth-article" (some "old-growth-article") true).2.index
      (resolveSlug "growth-article") = true ∧
    storeContains (update_single_article happyOracles
      { articles := [("old-growth-article", oldArticle)]
        articlesFile := [("old-growth-article", oldArticle)]
        ledgerMem := [⟨"old-growth-article", "2024-01-01", defaultModel, 3⟩]
        ledgerFile := [⟨"old-growth-article", "2024-01-01", defaultModel, 3⟩]
        index := [("old-growth-article", ⟨"old-growth-article", [7], []⟩)] }
      "growth-article" (some "old-growth-article") true).2.index
      "old-growth-article" = false :=
  rename_invariant happyOracles
    { articles := [("old-growth-article", oldArticle)]
      articlesFile := [("old-growth-article", oldArticle)]
      ledgerMem := [⟨"old-growth-article", "2024-01-01", defaultModel, 3⟩]
      ledgerFile := [⟨"old-growth-article", "2024-01-01", defaultModel, 3⟩]
      index := [("old-growth-article", ⟨"old-growth-article", [7], []⟩)] }
    "growth-article" "old-growth-article" (by decide) (by decide) (by decide) (by decide)

/-! ## C4 / C5 — pagination walk lemmas -/

theorem processStubs_scraped_eq (scrape : ArticleInfo → Option Article) :
    ∀ (stubs : List ArticleInfo) (st : Store Article),
      (processStubs scrape stubs st).2.2.2 = stubs := by
  intro stubs
  induction stubs with
  | nil => intro st; rfl
  | cons a rest ih =>
    intro st
    cases hsc : scrape a with
    | none => simp [processStubs, hsc, ih]
    | some c => simp [processStubs, hsc, ih]

theorem processStubs_mono (scrape : ArticleInfo → Option Article) (k : String) :
    ∀ (stubs : List ArticleInfo) (st : Store Article),
      storeContains st k = true →
      storeContains (processStubs scrape stubs st).1 k = true := by
  intro stubs
  induction stubs with
  | nil => intro st h; exact h
  | cons a rest ih =>
    intro st h
    cases hsc : scrape a with
    | none =>
      simp only [processStubs, hsc]
      exact ih st h
    | some c =>
      simp only [processStubs, hsc]
      exact ih _ ((storeContains_insert_iff _ _ _ _).mpr (Or.inr h))

theorem processStubs_contains_of_mem (scrape : ArticleInfo → Option Article)
    (hscr : ∀ a, (scrape a).isSome = true) :
    ∀ (stubs : List ArticleInfo) (st : Store Article) (a : ArticleInfo),
      a ∈ stubs →
      storeContains (processStubs scrape stubs st).1 a.slug = true := by
  intro stubs
  induction stubs with
  | nil => intro st a ha; simp at ha
  | cons b rest ih =>
    intro st a ha
    cases hsc : scrape b with
    | none =>
      have := hscr b
      rw [hsc] at this
      simp at this
    | some c =>
      simp only [processStubs, hsc]
      rcases List.mem_cons.mp ha with h | h
      · subst h
        exact processStubs_mono scrape a.slug rest _ (storeContains_insert_self _ _ _)
      · exact ih _ a h

theorem update_articles_mono (scrape : ArticleInfo → Option Article)
    (skip_existing : Bool) (k : String) :
    ∀ (pages : List (List ArticleInfo)) (st : Store Article),
      storeContains st k = true →
      storeContains (update_articles scrape skip_existing pages st).store k = true := by
  intro pages
  induction pages with
  | nil => intro st h; exact h
  | cons page rest ih =>
    intro st h
    simp only [update_articles]
    split
    · split
      · exact h
      · exact ih _ (processStubs_mono _ _ _ _ h)
    · split
      · exact h
      · exact ih _ (processStubs_mono _ _ _ _ h)

/-- After a walk starting at `page :: rest` with a total scraper, every
slug of the first page is in the resulting store. -/
theorem update_articles_head_contained (scrape : ArticleInfo → Option Article)
    (hscr : ∀ a, (scrape a).isSome = true) (skip_existing : Bool)
    (page : List ArticleInfo) (rest : List (List ArticleInfo))
    (st : Store Article) (a : ArticleInfo) (ha : a ∈ page) :
    storeContains
      (update_articles scrape skip_existing (page :: rest) st).store a.slug = true := by
  cases skip_existing with
  | true =>
    unfold update_articles
    rw [if_pos rfl]
    dsimp only
    by_cases hemp : (page.filter (fun a => !(storeContains st a.slug))).isEmpty = true
    · rw [if_pos hemp]
      have hnil := List.isEmpty_iff.mp hemp
      have := List.filter_eq_nil_iff.mp hnil a ha
      simp only [Bool.not_eq_true'] at this
      simpa using this
    · rw [if_neg hemp]
      apply update_articles_mono
      by_cases hc : storeContains st a.slug = true
      · exact processStubs_mono _ _ _ _ hc
      · apply processStubs_contains_of_mem scrape hscr
        refine List.mem_filter.mpr ⟨ha, ?_⟩
        simp only [Bool.not_eq_true] at hc
        rw [hc]
        rfl
  | false =>
    unfold update_articles
    rw [if_neg Bool.false_ne_true]
    by_cases hall : page.all (fun a => storeContains st a.slug) = true
    · rw [if_pos hall]
      exact List.all_eq_true.mp hall a ha
    · rw [if_neg hall]
      apply update_articles_mono
      exact processStubs_contains_of_mem scrape hscr page st a ha

/-- With `skip_existing=True`, a first page whose unknown-stub filter is
empty stops the whole walk. -/
theorem update_articles_stop_skip (scrape : ArticleInfo → Option Article)
    (st : Store Article) (page : List ArticleInfo)
    (rest : List (List ArticleInfo))
    (h : (page.filter (fun a => !(storeContains st a.slug))).isEmpty = true) :
    update_articles scrape true (page :: rest) st = ⟨st, 0, 0, [], 1⟩ := by
  unfold update_articles
  rw [if_pos rfl]
  dsimp only
  rw [if_pos h]

/-- With `skip_existing=False`, a first page on which every stub is
already known stops the whole walk. -/
theorem update_articles_stop_noskip (scrape : ArticleInfo → Option Article)
    (st : Store Article) (page : List ArticleInfo)
    (rest : List (List ArticleInfo))
    (h : page.all (fun a => storeContains st a.slug) = true) :
    update_articles scrape false (page :: rest) st = ⟨st, 0, 0, [], 1⟩ := by
  unfold update_articles
  rw [if_neg Bool.false_ne_true, if_pos h]

/-! ## C4 — the walk stops at the first fully-known page -/

/-- C4: (i) with `skip_existing=True`, if dropping the stubs already in
the store empties the first page, the whole walk stops there: nothing is
scraped, the store is untouched, the page counter shows that no page
beyond this one was fetched; (ii) with `skip_existing=False`, a page on
which every stub is known stops the walk the same way; (iii) with
`skip_existing=False`, a page holding at least one unknown stub has
*every* stub on it re-scraped — re-scraping is page-granular. -/
theorem pagination_stops_at_known_page (scrape : ArticleInfo → Option Article)
    (st : Store Article) (page : List ArticleInfo)
    (rest : List (List ArticleInfo)) :
    ((page.filter (fun a => !(storeContains st a.slug))).isEmpty = true →
      update_articles scrape true (page :: rest) st = ⟨st, 0, 0, [], 1⟩) ∧
    (page.all (fun a => storeContains st a.slug) = true →
      update_articles scrape false (page :: rest) st = ⟨st, 0, 0, [], 1⟩) ∧
    (page.all (fun a => storeContains st a.slug) = false →
      ∀ a ∈ page,
        a ∈ (update_articles scrape false (page :: rest) st).scraped) := by
  refine ⟨?_, ?_, ?_⟩
  · exact update_articles_stop_skip scrape st page rest
  · exact update_articles_stop_noskip scrape st page rest
  · intro h a ha
    unfold update_articles
    rw [if_neg Bool.false_ne_true, if_neg (by rw [h]; exact Bool.false_ne_true)]
    dsimp only
    rw [processStubs_scraped_eq]
    exact List.mem_append_left _ ha

/-- C4 witness: with the single stub of page 1 already in the store and
`skip_existing=True`, the walk returns immediately — one page fetched,
nothing scraped, store unchanged — although a second page exists. -/
theorem pagination_stops_at_known_page_witness :
    (([sampleInfo].filter
        (fun a => !(storeContains [("growth-article", sampleArticle)] a.slug))).isEmpty
      = true) ∧
    update_articles (fun _ => some sampleArticle) true [[sampleInfo], [sampleInfo]]
        [("growth-article", sampleArticle)] =
      ⟨[("growth-article", sampleArticle)], 0, 0, [], 1⟩ :=
  ⟨by decide,
    (pagination_stops_at_known_page (fun _ => some sampleArticle)
      [("growth-article", sampleArticle)] [sampleInfo] [[sampleInfo]]).1 (by decide)⟩

/-! ## C5 — bulk sync is idempotent -/

/-- C5: with the source site unchanged between the two runs (same listing
pages, same deterministic scraper) and every scrape succeeding, running
`update_articles` a second time from the store the first run produced
yields `(new=0, updated=0)` — for `skip_existing=False` the first page is
then fully known and stops the walk, and for `skip_existing=True` the
filtered stub set of the first page is empty — and leaves the store
exactly as the first run left it. -/
theorem bulk_sync_idempotent (scrape : ArticleInfo → Option Article)
    (hscr : ∀ a, (scrape a).isSome = true) (skip_existing : Bool)
    (pages : List (List ArticleInfo)) (st : Store Article) :
    (update_articles scrape skip_existing pages
        (update_articles scrape skip_existing pages st).store).newCount = 0 ∧
    (update_articles scrape skip_existing pages
        (update_articles scrape skip_existing pages st).store).updatedCount = 0 ∧
    (update_articles scrape skip_existing pages
        (update_articles scrape skip_existing pages st).store).store =
      (update_articles scrape skip_existing pages st).store := by
  cases pages with
  | nil => exact ⟨rfl, rfl, rfl⟩
  | cons page rest =>
    have hall : ∀ a ∈ page,
        storeContains (update_articles scrape skip_existing (page :: rest) st).store
          a.slug = true :=
      fun a ha => update_articles_head_contained scrape hscr skip_existing page rest st a ha
    cases skip_existing with
    | false =>
      set s1 := (update_articles scrape false (page :: rest) st).store with hs1
      have h2 : page.all (fun a => storeContains s1 a.slug) = true :=
        List.all_eq_true.mpr hall
      rw [update_articles_stop_noskip scrape s1 page rest h2]
      exact ⟨rfl, rfl, rfl⟩
    | true =>
      set s1 := (update_articles scrape true (page :: rest) st).store with hs1
      have hfil : page.filter (fun a => !(storeContains s1 a.slug)) = [] :=
        List.filter_eq_nil_iff.mpr (fun a ha => by
          rw [hall a ha]
          simp)
      rw [update_articles_stop_skip scrape s1 page rest (by rw [hfil]; rfl)]
      exact ⟨rfl, rfl, rfl⟩

/-- C5 witness: one listing page with one stub, scraping always
succeeding, starting from the empty store; the second run reports
`(0, 0)` and preserves the store. -/
theorem bulk_sync_idempotent_witness :
    (update_articles (fun _ => some sampleArticle) false [[sampleInfo]]
        (update_articles (fun _ => some sampleArticle) false [[sampleInfo]] []).store).newCount
      = 0 ∧
    (update_articles (fun _ => some sampleArticle) false [[sampleInfo]]
        (update_articles (fun _ => some sampleArticle) false [[sampleInfo]] []).store).updatedCount
      = 0 ∧
    (update_articles (fun _ => some sampleArticle) false [[sampleInfo]]
        (update_articles (fun _ => some sampleArticle) false [[sampleInfo]] []).store).store =
      (update_articles (fun _ => some sampleArticle) false [[sampleInfo]] []).store :=
  bulk_sync_idempotent (fun _ => some sampleArticle) (fun _ => rfl) false [[sampleInfo]] []
